import Mathlib

/-!
Shallow embedding of pyproc.py, a parser for the Linux proc(5)
pseudo-filesystem.  Pure string-processing functions of the source are
translated directly; file reads are modelled by `Option String` inputs
(`none` means the read hit ENOENT or EACCES, which `raw_read` maps to
`None`); Python exceptions are modelled by `Except PyErr`.
The platform page size (`resource.getpagesize()`) is passed as an
explicit parameter `ps`.
-/

/-- A Python exception, carrying its class and message. -/
inductive PyErr : Type where
  | typeError (msg : String)
  | valueError (msg : String)
  | indexError (msg : String)
  | structError (msg : String)
deriving DecidableEq, Repr

/-- A Python value that is either an int or a str, the codomain of the
`convert` helpers in `_stat` and `_limits` (try `int(s)`, fall back to
the string itself). -/
inductive PyVal : Type where
  | int (n : Int)
  | str (s : String)
deriving DecidableEq, Repr

/- ---------- string primitives (Python semantics) ---------- -/

/-- Length of a string in characters (proc lines are ASCII, so this
matches Python byte counting on the inputs of interest). -/
def pyLen (s : String) : Nat := s.data.length

/-- First `n` characters, Python `s[0:n]` / the first field of a
`struct.unpack` format. -/
def pyTake (s : String) (n : Nat) : String := ⟨s.data.take n⟩

/-- Characters from position `n` on, Python `s[n:]`. -/
def pyDrop (s : String) (n : Nat) : String := ⟨s.data.drop n⟩

/-- Python `s.strip()`: surrounding whitespace removed. -/
def pyTrim (s : String) : String :=
  ⟨((s.data.dropWhile Char.isWhitespace).reverse.dropWhile Char.isWhitespace).reverse⟩

/-- Accumulator-style worker for Python `s.split()` (no argument):
split on whitespace runs, dropping empty pieces. -/
def splitWSAux : List Char → List Char → List String
  | [], acc => if acc.isEmpty then [] else [⟨acc.reverse⟩]
  | c :: cs, acc =>
    if c.isWhitespace then
      if acc.isEmpty then splitWSAux cs [] else ⟨acc.reverse⟩ :: splitWSAux cs []
    else splitWSAux cs (c :: acc)

/-- Python `s.split()` with no argument. -/
def pySplitWS (s : String) : List String := splitWSAux s.data []

/-- Worker for Python `s.split(sep)` with a one-character separator:
split at every occurrence, keeping empty pieces. -/
def splitOnCAux (sep : Char) : List Char → List Char → List String
  | [], acc => [⟨acc.reverse⟩]
  | c :: cs, acc =>
    if c = sep then ⟨acc.reverse⟩ :: splitOnCAux sep cs []
    else splitOnCAux sep cs (c :: acc)

/-- Python `s.split(sep)` for a one-character separator `sep`. -/
def pySplitOnC (s : String) (sep : Char) : List String := splitOnCAux sep s.data []

/-- Python `s.startswith(p)`. -/
def pyStartsWith (s p : String) : Bool := p.data.isPrefixOf s.data

/-- Python `s.rstrip(c)` for a single character: trailing copies of `c`
removed. -/
def pyRStripC (s : String) (c : Char) : String :=
  ⟨(s.data.reverse.dropWhile (· = c)).reverse⟩

/-- Python `s * n` on a string: `n` concatenated copies. -/
def strRepeat (s : String) (n : Nat) : String := ⟨(List.replicate n s.data).flatten⟩

/- ---------- numeric literal parsing (Python int()) ---------- -/

/-- Value of one decimal digit, `none` for any other character. -/
def decDigit? (c : Char) : Option Nat :=
  if '0' ≤ c ∧ c ≤ '9' then some (c.toNat - '0'.toNat) else none

/-- Value of one hexadecimal digit (either case), `none` otherwise. -/
def hexDigit? (c : Char) : Option Nat :=
  if '0' ≤ c ∧ c ≤ '9' then some (c.toNat - '0'.toNat)
  else if 'a' ≤ c ∧ c ≤ 'f' then some (c.toNat - 'a'.toNat + 10)
  else if 'A' ≤ c ∧ c ≤ 'F' then some (c.toNat - 'A'.toNat + 10)
  else none

/-- Fold a digit list under a base, failing on a non-digit. -/
def digitsFold (digit? : Char → Option Nat) (base : Nat) : List Char → Nat → Option Nat
  | [], acc => some acc
  | c :: cs, acc =>
    match digit? c with
    | some d => digitsFold digit? base cs (acc * base + d)
    | none => none

/-- Python `int(s)` on a plain (non-empty, already unpadded) digit
string, with an optional leading minus sign. -/
def decInt? (s : String) : Option Int :=
  match s.data with
  | [] => none
  | '-' :: rest =>
    if rest.isEmpty then none
    else (digitsFold decDigit? 10 rest 0).map (fun n => -(n : Int))
  | l => (digitsFold decDigit? 10 l 0).map Int.ofNat

/-- Python `int(s, 16)` on a plain non-empty hex-digit string. -/
def hexInt? (s : String) : Option Nat :=
  match s.data with
  | [] => none
  | l => digitsFold hexDigit? 16 l 0

/-- The `convert` helper shared by `_stat` and `_limits`: strip the
token, coerce to int when numeric, else keep the stripped string. -/
def convert (s : String) : PyVal :=
  match decInt? (pyTrim s) with
  | some n => PyVal.int n
  | none => PyVal.str (pyTrim s)

/-- Python `int * nat` and `str * nat` (string repetition), as applied
by `data[index] = data[index] * PAGESIZE` in `_stat`. -/
def pyMul : PyVal → Nat → PyVal
  | PyVal.int n, k => PyVal.int (n * k)
  | PyVal.str s, k => PyVal.str (strRepeat s k)

/- ---------- primitive decoders (network-table support) ---------- -/

/-- The TCP state table of `port_status_from_hex`, from tcp_states.h. -/
def hexmap : List (Int × String) :=
  [(1, "ESTABLISHED"), (2, "TCP_SYN_SENT"), (3, "TCP_SYN_RECV"),
   (4, "TCP_FIN_WAIT1"), (5, "TCP_FIN_WAIT2"), (6, "TCP_TIME_WAIT"),
   (7, "TCP_CLOSE"), (8, "TCP_CLOSE_WAIT"), (9, "TCP_LAST_ACK"),
   (10, "TCP_LISTEN"), (11, "TCP_CLOSING"), (12, "TCP_MAX_STATES")]

/-- The body of `port_status_from_hex` as written: it evaluates
`int(hex_status, 16)` and then CALLS the dict — `hexmap(...)` instead of
`hexmap[...]` — so every successfully parsed input raises a TypeError.
A malformed hex input raises ValueError from `int` first. -/
def port_status_from_hex (hex_status : String) : Except PyErr String :=
  match hexInt? hex_status with
  | none => Except.error (PyErr.valueError "invalid literal for int with base 16")
  | some _ => Except.error (PyErr.typeError "dict object is not callable")

/- ---------- RODict ---------- -/

/-- The read-only dictionary of the source, as an association list of
its entries.  Its mutating methods are modelled below as functions
returning the raised message (if any) together with the dictionary
state after the call. -/
structure RODict (K V : Type) : Type where
  entries : List (K × V)
deriving DecidableEq, Repr

/-- Python dict insertion: overwrite in place when the key is present,
else append. -/
def dictInsert [DecidableEq K] (l : List (K × V)) (k : K) (v : V) : List (K × V) :=
  if (l.filter (fun p => p.1 = k)).isEmpty then l ++ [(k, v)]
  else l.map (fun p => if p.1 = k then (k, v) else p)

/-- Python dict lookup `d[k]` as an option: first matching entry. -/
def dictGet? [DecidableEq K] (l : List (K × V)) (k : K) : Option V :=
  match l.filter (fun p => p.1 = k) with
  | [] => none
  | p :: _ => some p.2

/-- The common message raised by every overridden RODict method. -/
def roMsg : String := "RODict is a read only dictionary"

/-- RODict `__setitem__`: raises before touching the entries. -/
def RODict.setitem (d : RODict K V) (_k : K) (_v : V) : Option String × RODict K V :=
  (some roMsg, d)

/-- RODict `clear`: raises before touching the entries. -/
def RODict.clearItems (d : RODict K V) : Option String × RODict K V :=
  (some roMsg, d)

/-- RODict `__delitem__`: raises before touching the entries. -/
def RODict.delitem (d : RODict K V) (_k : K) : Option String × RODict K V :=
  (some roMsg, d)

/-- RODict `pop`: raises before touching the entries; no value is
returned. -/
def RODict.popKey (d : RODict K V) (_k : K) : Option String × RODict K V :=
  (some roMsg, d)

/-- RODict `popitem`: raises before touching the entries. -/
def RODict.popitem (d : RODict K V) : Option String × RODict K V :=
  (some roMsg, d)

/-- RODict `update`: raises before touching the entries. -/
def RODict.updateWith (d : RODict K V) (_other : List (K × V)) : Option String × RODict K V :=
  (some roMsg, d)

/-- RODict `setdefault`: NOT overridden by the source class, so the
inherited dict behaviour applies — return the existing value, or
insert the supplied one and return it.  No exception is raised. -/
def RODict.setdefault [DecidableEq K] (d : RODict K V) (k : K) (v : V) :
    Option String × RODict K V × V :=
  match dictGet? d.entries k with
  | some v0 => (none, d, v0)
  | none => (none, ⟨d.entries ++ [(k, v)]⟩, v)

/- ---------- record types ---------- -/

/-- Address range of one mapped region (namedtuple `AddressRange`). -/
structure AddressRange : Type where
  start : Nat
  «end» : Nat
deriving DecidableEq, Repr

/-- Major/minor device pair (namedtuple `Device`). -/
structure Device : Type where
  major : Nat
  minor : Nat
deriving DecidableEq, Repr

/-- Permission flags of a mapped region (class `Perms`); `private` is
reserved in Lean, hence the quoted field name. -/
structure Perms : Type where
  raw : String
  read : Bool
  write : Bool
  execute : Bool
  shared : Bool
  «private» : Bool
deriving DecidableEq, Repr

/-- The `Perms.__init__` constructor: each flag is a membership test on
the raw string. -/
def Perms.ofRaw (s : String) : Perms :=
  ⟨s, s.data.contains 'r', s.data.contains 'w', s.data.contains 'x',
   s.data.contains 's', s.data.contains 'p'⟩

/-- One mapped region (namedtuple `PMap`). -/
structure PMap : Type where
  addresses : AddressRange
  perms : Perms
  offset : Nat
  dev : Device
  inode : Int
  pathname : Option String
deriving DecidableEq, Repr

/-- One resource-limit value with its units (namedtuple `Limit`). -/
structure Limit : Type where
  value : PyVal
  units : PyVal
deriving DecidableEq, Repr

/-- The soft/hard pair stored per limit name by `_limits`. -/
structure LimitEntry : Type where
  soft : Limit
  hard : Limit
deriving DecidableEq, Repr

/-- The 44 fields of the `PStat` namedtuple, in source order. -/
structure PStat : Type where
  pid : PyVal
  comm : PyVal
  state : PyVal
  ppid : PyVal
  pgrp : PyVal
  session : PyVal
  tty_nr : PyVal
  tpgid : PyVal
  flags : PyVal
  minflt : PyVal
  cminflt : PyVal
  majflt : PyVal
  cmajflt : PyVal
  utime : PyVal
  stime : PyVal
  cutime : PyVal
  cstime : PyVal
  priority : PyVal
  nice : PyVal
  num_threads : PyVal
  itrealvalue : PyVal
  starttime : PyVal
  vsize : PyVal
  rss : PyVal
  rsslim : PyVal
  startcode : PyVal
  endcode : PyVal
  startstack : PyVal
  kstkesp : PyVal
  kstkeip : PyVal
  signal : PyVal
  blocked : PyVal
  sigignore : PyVal
  sigcatch : PyVal
  wchan : PyVal
  nswap : PyVal
  cnswap : PyVal
  exit_signal : PyVal
  processor : PyVal
  rt_priority : PyVal
  policy : PyVal
  delayacct_blkio_ticks : PyVal
  guest_time : PyVal
  cguest_time : PyVal
deriving DecidableEq, Repr

/-- `PStat(*data)` on a 44-element list (positions 0..43 in order). -/
def PStat.ofList (l : List PyVal) : PStat :=
  let d := PyVal.int 0
  ⟨l.getD 0 d, l.getD 1 d, l.getD 2 d, l.getD 3 d, l.getD 4 d, l.getD 5 d,
   l.getD 6 d, l.getD 7 d, l.getD 8 d, l.getD 9 d, l.getD 10 d, l.getD 11 d,
   l.getD 12 d, l.getD 13 d, l.getD 14 d, l.getD 15 d, l.getD 16 d, l.getD 17 d,
   l.getD 18 d, l.getD 19 d, l.getD 20 d, l.getD 21 d, l.getD 22 d, l.getD 23 d,
   l.getD 24 d, l.getD 25 d, l.getD 26 d, l.getD 27 d, l.getD 28 d, l.getD 29 d,
   l.getD 30 d, l.getD 31 d, l.getD 32 d, l.getD 33 d, l.getD 34 d, l.getD 35 d,
   l.getD 36 d, l.getD 37 d, l.getD 38 d, l.getD 39 d, l.getD 40 d, l.getD 41 d,
   l.getD 42 d, l.getD 43 d⟩

/-- The 7 fields of the `PStatM` namedtuple, in source order, all in
bytes. -/
structure PStatM : Type where
  size : Int
  resident : Int
  share : Int
  text : Int
  lib : Int
  data : Int
  UNUSED : Int
deriving DecidableEq, Repr

/- ---------- maps parser ---------- -/

/-- Decode every element of a token list as base-16 (the Python list
comprehensions over `split('-')` and `split(':')`). -/
def mapHexList : List String → Option (List Nat)
  | [] => some []
  | s :: ss =>
    match hexInt? s with
    | none => none
    | some n => (mapHexList ss).map (n :: ·)

/-- Python `fields[i]`: IndexError when out of range. -/
def getField (fields : List String) (i : Nat) : Except PyErr String :=
  match fields.get? i with
  | some f => Except.ok f
  | none => Except.error (PyErr.indexError "list index out of range")

/-- Python `int(s, 16)` as an exception-raising operation. -/
def hexE (s : String) : Except PyErr Nat :=
  match hexInt? s with
  | some n => Except.ok n
  | none => Except.error (PyErr.valueError "invalid literal for int with base 16")

/-- Python `int(s)` as an exception-raising operation. -/
def decE (s : String) : Except PyErr Int :=
  match decInt? s with
  | some n => Except.ok n
  | none => Except.error (PyErr.valueError "invalid literal for int with base 10")

/-- The list comprehension `[int(v, 16) for v in l]`. -/
def mapHexE (l : List String) : Except PyErr (List Nat) :=
  match mapHexList l with
  | some ns => Except.ok ns
  | none => Except.error (PyErr.valueError "invalid literal for int with base 16")

/-- Unpacking a list into a two-argument namedtuple constructor
(`AddressRange(*addresses)`, `Device(*dev)`): TypeError unless the list
has exactly two elements. -/
def pair2 {α : Type} (ctor : String) (l : List α) : Except PyErr (α × α) :=
  match l with
  | [a, b] => Except.ok (a, b)
  | _ => Except.error (PyErr.typeError (ctor ++ " takes exactly 2 arguments"))

/-- Shared body of both branches of `_maps`: given the
whitespace-split field list, decode address range, permissions, offset,
device and inode, in the evaluation order of the source. -/
def parseMapsFields (fields : List String) :
    Except PyErr (AddressRange × Perms × Nat × Device × Int) := do
  let f0 ← getField fields 0
  let addrs ← mapHexE (pySplitOnC f0 '-')
  let ab ← pair2 "AddressRange" addrs
  let f1 ← getField fields 1
  let f2 ← getField fields 2
  let off ← hexE f2
  let f3 ← getField fields 3
  let devs ← mapHexE (pySplitOnC f3 ':')
  let mm ← pair2 "Device" devs
  let f4 ← getField fields 4
  let inode ← decE f4
  Except.ok (⟨ab.1, ab.2⟩, Perms.ofRaw f1, off, ⟨mm.1, mm.2⟩, inode)

/-- One line of `_maps`: lines longer than 73 characters are unpacked
as a 73-column fixed block plus a trailing pathname (stripped); other
lines are whitespace-split whole, with pathname `None`. -/
def parseMapsLine (line : String) : Except PyErr PMap :=
  if 73 < pyLen line then
    (parseMapsFields (pySplitWS (pyTake line 73))).map
      (fun f => ⟨f.1, f.2.1, f.2.2.1, f.2.2.2.1, f.2.2.2.2,
                 some (pyTrim (pyDrop line 73))⟩)
  else
    (parseMapsFields (pySplitWS line)).map
      (fun f => ⟨f.1, f.2.1, f.2.2.1, f.2.2.2.1, f.2.2.2.2, none⟩)

/-- The loop of `_maps` over the newline-split lines, skipping empty
lines and appending records in order. -/
def mapsFold : List String → Except PyErr (List PMap)
  | [] => Except.ok []
  | l :: ls =>
    if pyLen l = 0 then mapsFold ls
    else
      match parseMapsLine l with
      | Except.error e => Except.error e
      | Except.ok m => (mapsFold ls).map (m :: ·)

/-- `Process._maps`: `None` input (unreadable file) propagates to
`None`; otherwise each non-empty line becomes one `PMap`. -/
def Process._maps : Option String → Except PyErr (Option (List PMap))
  | none => Except.ok none
  | some raw => (mapsFold (pySplitOnC raw '\n')).map some

/- ---------- limits parser ---------- -/

/-- One non-header, non-empty line of `_limits`: `struct.unpack` with
format `@26s21s21s10s` (total width 78) is tried first; on a width
mismatch the fallback format `@26s21s21s` (total width 68) is tried,
with units forced to the `N/A` sentinel; any other width is a fatal
`struct.error`. -/
def parseLimitsLine (line : String) : Except PyErr (PyVal × LimitEntry) :=
  if pyLen line = 78 then
    let ltype := convert (pyTake line 26)
    let lsoft := convert (pyTake (pyDrop line 26) 21)
    let lhard := convert (pyTake (pyDrop line 47) 21)
    let lunit := convert (pyDrop line 68)
    Except.ok (ltype, ⟨⟨lsoft, lunit⟩, ⟨lhard, lunit⟩⟩)
  else if pyLen line = 68 then
    let ltype := convert (pyTake line 26)
    let lsoft := convert (pyTake (pyDrop line 26) 21)
    let lhard := convert (pyDrop line 47)
    Except.ok (ltype, ⟨⟨lsoft, PyVal.str "N/A"⟩, ⟨lhard, PyVal.str "N/A"⟩⟩)
  else
    Except.error (PyErr.structError "unpack requires a string argument of length 68")

/-- The loop of `_limits` over the newline-split lines: the header line
and empty lines are skipped, every other line must unpack. -/
def limitsFold : List String → List (PyVal × LimitEntry) →
    Except PyErr (List (PyVal × LimitEntry))
  | [], acc => Except.ok acc
  | l :: ls, acc =>
    if pyStartsWith l "Limit" then limitsFold ls acc
    else if l = "" then limitsFold ls acc
    else
      match parseLimitsLine l with
      | Except.error e => Except.error e
      | Except.ok (k, v) => limitsFold ls (dictInsert acc k v)

/-- `Process._limits`: absence propagates; otherwise a read-only
dictionary keyed by the converted limit name. -/
def Process._limits : Option String → Except PyErr (Option (RODict PyVal LimitEntry))
  | none => Except.ok none
  | some raw => (limitsFold (pySplitOnC raw '\n') []).map (fun l => some ⟨l⟩)

/- ---------- stat parser ---------- -/

/-- Python `data[i] = data[i] * ps` on a list: IndexError when `i` is
out of range. -/
def scaleAt (ps : Nat) (data : List PyVal) (i : Nat) : Except PyErr (List PyVal) :=
  match data.get? i with
  | some v => Except.ok (data.set i (pyMul v ps))
  | none => Except.error (PyErr.indexError "list assignment index out of range")

/-- The data list built by `_stat`: whitespace-split tokens through
`convert`, then positions 23, 35 and 36 (0-indexed) multiplied by the
page size. -/
def statDataE (ps : Nat) (raw : String) : Except PyErr (List PyVal) :=
  match scaleAt ps ((pySplitWS raw).map convert) 23 with
  | Except.error e => Except.error e
  | Except.ok d1 =>
    match scaleAt ps d1 35 with
    | Except.error e => Except.error e
    | Except.ok d2 => scaleAt ps d2 36

/-- `Process._stat`: absence propagates; otherwise the scaled data list
must have exactly the 44-field arity of `PStat`. -/
def Process._stat (ps : Nat) : Option String → Except PyErr (Option PStat)
  | none => Except.ok none
  | some raw =>
    match statDataE ps raw with
    | Except.error e => Except.error e
    | Except.ok data =>
      if data.length = 44 then Except.ok (some (PStat.ofList data))
      else Except.error (PyErr.typeError "PStat takes exactly 44 arguments")

/- ---------- statm parser ---------- -/

/-- The list comprehension of `_statm`: every whitespace-split token is
`int(v) * PAGESIZE`, a non-integer token being a fatal ValueError. -/
def mapIntScaled (ps : Nat) : List String → Except PyErr (List Int)
  | [] => Except.ok []
  | t :: ts =>
    match decInt? t with
    | none => Except.error (PyErr.valueError "invalid literal for int with base 10")
    | some n => (mapIntScaled ps ts).map (fun l => n * (ps : Int) :: l)

/-- `Process._statm`: absence propagates; otherwise the scaled list
must have exactly the 7-field arity of `PStatM`. -/
def Process._statm (ps : Nat) : Option String → Except PyErr (Option PStatM)
  | none => Except.ok none
  | some raw =>
    match mapIntScaled ps (pySplitWS raw) with
    | Except.error e => Except.error e
    | Except.ok data =>
      match data with
      | [a, b, c, d, e, f, g] => Except.ok (some ⟨a, b, c, d, e, f, g⟩)
      | _ => Except.error (PyErr.typeError "PStatM takes exactly 7 arguments")

/- ---------- cmdline, environ, fd, loginuid, root parsers ---------- -/

/-- `Process._args`: split the raw cmdline on NUL and drop the final
empty token; absence propagates. -/
def Process._args : Option String → Option (List String)
  | none => none
  | some raw => some ((pySplitOnC raw '\x00').dropLast)

/-- One entry of `_environ`: split on the first `=`; a token without
`=` maps the token (trailing `=` stripped) to an absent value. -/
def parseEnvEntry (tok : String) : String × Option String :=
  match pySplitOnC tok '=' with
  | k :: v :: rest => (k, some (String.intercalate "=" (v :: rest)))
  | _ => (pyRStripC tok '=', none)

/-- `Process._environ`: NUL-split entries folded into a read-only
dictionary; absence propagates. -/
def Process._environ : Option String → Option (RODict String (Option String))
  | none => none
  | some raw =>
    some ⟨((pySplitOnC raw '\x00').dropLast).foldl
      (fun acc tok =>
        let e := parseEnvEntry tok
        dictInsert acc e.1 e.2) []⟩

/-- `Process._fds`: the input models the fd directory listing with each
link target (absent on EACCES or ENOENT); entries are folded into a
read-only dictionary. -/
def Process._fds : Option (List (String × String)) → Option (RODict String String)
  | none => none
  | some l => some ⟨l.foldl (fun acc p => dictInsert acc p.1 p.2) []⟩

/-- `Process._loginuid`: `int(raw)` on the file content (surrounding
whitespace tolerated by Python int); absence propagates. -/
def Process._loginuid : Option String → Except PyErr (Option Int)
  | none => Except.ok none
  | some raw =>
    match decInt? (pyTrim raw) with
    | some n => Except.ok (some n)
    | none => Except.error (PyErr.valueError "invalid literal for int with base 10")

/-- `Process._root`: the input models the `readlink` result, already
`none` on EACCES or ENOENT, and is returned unchanged. -/
def Process._root (link : Option String) : Option String := link

/- ---------- snapshot builder ---------- -/

/-- The per-file raw inputs of one `Process.__init__` run: each field
is the result of the corresponding read, `none` on ENOENT or EACCES. -/
structure ProcInputs : Type where
  cmdline : Option String
  environ : Option String
  fds : Option (List (String × String))
  limits : Option String
  loginuid : Option String
  maps : Option String
  root : Option String
  stat : Option String
  statm : Option String
deriving DecidableEq, Repr

/-- The assembled snapshot (class `Process` after `__init__`): every
field is independently optional. -/
structure Process : Type where
  pid : Int
  args : Option (List String)
  environ : Option (RODict String (Option String))
  fds : Option (RODict String String)
  limits : Option (RODict PyVal LimitEntry)
  loginuid : Option Int
  maps : Option (List PMap)
  root : Option String
  stat : Option PStat
  statm : Option PStatM
deriving DecidableEq, Repr

/-- `Process.__init__`: each parser is invoked once, in source order;
a fatal parse error aborts construction. -/
def Process.build (ps : Nat) (pid : Int) (inp : ProcInputs) : Except PyErr Process :=
  let args := Process._args inp.cmdline
  let environ := Process._environ inp.environ
  let fds := Process._fds inp.fds
  match Process._limits inp.limits with
  | Except.error e => Except.error e
  | Except.ok limits =>
    match Process._loginuid inp.loginuid with
    | Except.error e => Except.error e
    | Except.ok loginuid =>
      match Process._maps inp.maps with
      | Except.error e => Except.error e
      | Except.ok maps =>
        let root := Process._root inp.root
        match Process._stat ps inp.stat with
        | Except.error e => Except.error e
        | Except.ok stat =>
          match Process._statm ps inp.statm with
          | Except.error e => Except.error e
          | Except.ok statm =>
            Except.ok ⟨pid, args, environ, fds, limits, loginuid, maps, root,
                       stat, statm⟩

/-- The `cmdline` property: `' '.join(self.args)`; joining `None`
raises a TypeError. -/
def Process.cmdline (p : Process) : Except PyErr String :=
  match p.args with
  | none => Except.error (PyErr.typeError "can only join an iterable")
  | some args => Except.ok (String.intercalate " " args)

/-- The `loginuser` property: `pwd.getpwuid(self.loginuid)` under an
abstract password database `db`; only KeyError is caught (mapped to the
sentinel), while `getpwuid(None)` raises a TypeError. -/
def Process.loginuser (db : Int → Option String) (p : Process) : Except PyErr String :=
  match p.loginuid with
  | none => Except.error (PyErr.typeError "an integer is required")
  | some uid =>
    match db uid with
    | some name => Except.ok name
    | none => Except.ok "N/A"

/- ---------- wellformedness predicates ---------- -/

/-- Success test on an `Except` result. -/
def exceptOk : Except ε α → Bool
  | Except.ok _ => true
  | Except.error _ => false

/-- A readable loginuid file content parses as an integer. -/
def wfLoginuid : Option String → Bool
  | none => true
  | some raw => (decInt? (pyTrim raw)).isSome

/-- A readable stat file content has the full 44-token arity. -/
def wfStat : Option String → Bool
  | none => true
  | some raw => (pySplitWS raw).length = 44

/-- A readable statm file content has 7 tokens, all integers. -/
def wfStatM : Option String → Bool
  | none => true
  | some raw =>
    (pySplitWS raw).length = 7 && (pySplitWS raw).all (fun t => (decInt? t).isSome)

/-- A readable maps file content has every non-empty line parse. -/
def wfMaps : Option String → Bool
  | none => true
  | some raw =>
    (pySplitOnC raw '\n').all (fun l => pyLen l = 0 || exceptOk (parseMapsLine l))

/-- A readable limits file content has every non-header, non-empty
line of unpackable width. -/
def wfLimits : Option String → Bool
  | none => true
  | some raw =>
    (pySplitOnC raw '\n').all
      (fun l => pyStartsWith l "Limit" || l = "" || exceptOk (parseLimitsLine l))

/- ==================== helper lemmas ==================== -/

lemma except_bind_ok {ε α β : Type} (x : Except ε α) (f : α → Except ε β) (b : β) :
    (x >>= f) = Except.ok b ↔ ∃ a, x = Except.ok a ∧ f a = Except.ok b := by
  cases x with
  | error e => simp [Bind.bind, Except.bind]
  | ok a => simp [Bind.bind, Except.bind]

lemma getField_ok {fields : List String} {i : Nat} {f : String}
    (h : getField fields i = Except.ok f) : fields.get? i = some f := by
  unfold getField at h
  cases hq : fields.get? i with
  | none => rw [hq] at h; cases h
  | some g => rw [hq] at h; cases h; rfl

lemma hexE_ok {s : String} {n : Nat} (h : hexE s = Except.ok n) :
    hexInt? s = some n := by
  unfold hexE at h
  cases hq : hexInt? s with
  | none => rw [hq] at h; cases h
  | some m => rw [hq] at h; cases h; rfl

lemma decE_ok {s : String} {n : Int} (h : decE s = Except.ok n) :
    decInt? s = some n := by
  unfold decE at h
  cases hq : decInt? s with
  | none => rw [hq] at h; cases h
  | some m => rw [hq] at h; cases h; rfl

lemma mapHexE_ok {l : List String} {ns : List Nat} (h : mapHexE l = Except.ok ns) :
    mapHexList l = some ns := by
  unfold mapHexE at h
  cases hq : mapHexList l with
  | none => rw [hq] at h; cases h
  | some ms => rw [hq] at h; cases h; rfl

lemma pair2_ok {α : Type} {c : String} {l : List α} {p : α × α}
    (h : pair2 c l = Except.ok p) : l = [p.1, p.2] := by
  unfold pair2 at h
  match l, h with
  | [a, b], h => cases h; rfl

lemma splitOnCAux_no_sep (sep : Char) (l acc : List Char) (h : sep ∉ l) :
    splitOnCAux sep l acc = [⟨acc.reverse ++ l⟩] := by
  induction l generalizing acc with
  | nil => simp [splitOnCAux]
  | cons c cs ih =>
    have hc : ¬ c = sep := fun he => h (he ▸ List.mem_cons_self c cs)
    rw [splitOnCAux, if_neg hc, ih (c :: acc) (fun hm => h (List.mem_cons_of_mem c hm))]
    simp

lemma pySplitOnC_no_sep (s : String) (sep : Char) (h : sep ∉ s.data) :
    pySplitOnC s sep = [s] := by
  rw [pySplitOnC, splitOnCAux_no_sep sep s.data [] h]
  rfl

/- ==================== C1 ==================== -/

/-- C1: the connection-state decoder is broken as written: the source
calls the state dict (`hexmap(...)`) instead of indexing it, so the
in-range input `"1"` raises a TypeError instead of returning
`ESTABLISHED` (likewise `"A"`, hex for 10); the state table itself does
map 1 to `ESTABLISHED` and 10 to `TCP_LISTEN` and rejects 0 and 13. -/
theorem port_status_from_hex_calls_dict :
    port_status_from_hex "1" =
      Except.error (PyErr.typeError "dict object is not callable") ∧
    port_status_from_hex "A" =
      Except.error (PyErr.typeError "dict object is not callable") ∧
    List.lookup (1 : Int) hexmap = some "ESTABLISHED" ∧
    List.lookup (10 : Int) hexmap = some "TCP_LISTEN" ∧
    List.lookup (0 : Int) hexmap = none ∧
    List.lookup (13 : Int) hexmap = none :=
  ⟨rfl, rfl, rfl, rfl, rfl, rfl⟩

/- ==================== C7 ==================== -/

/-- C7: every mutating operation of a read-only table — item
assignment, item deletion, clear, pop, popitem, update — raises the
read-only TypeError message and leaves the entries unchanged. -/
theorem rodict_mutators_raise_and_preserve {K V : Type} (d : RODict K V)
    (k : K) (v : V) (other : List (K × V)) :
    d.setitem k v = (some roMsg, d) ∧
    d.delitem k = (some roMsg, d) ∧
    d.clearItems = (some roMsg, d) ∧
    d.popKey k = (some roMsg, d) ∧
    d.popitem = (some roMsg, d) ∧
    d.updateWith other = (some roMsg, d) :=
  ⟨rfl, rfl, rfl, rfl, rfl, rfl⟩

/- ==================== C9 ==================== -/

/-- C9: on a snapshot whose argument list is absent, the `cmdline`
property raises a TypeError; on a snapshot whose loginuid is absent,
the `loginuser` property raises a TypeError and in particular does not
return the `N/A` sentinel. -/
theorem cmdline_loginuser_raise_on_absent (p : Process) (db : Int → Option String)
    (ha : p.args = none) (hu : p.loginuid = none) :
    p.cmdline = Except.error (PyErr.typeError "can only join an iterable") ∧
    p.loginuser db = Except.error (PyErr.typeError "an integer is required") ∧
    p.loginuser db ≠ Except.ok "N/A" := by
  refine ⟨?_, ?_, ?_⟩
  · rw [Process.cmdline, ha]
  · rw [Process.loginuser, hu]
  · rw [Process.loginuser, hu]
    intro h
    cases h

/-- Witness for C9 at a concrete snapshot with both fields absent. -/
theorem cmdline_loginuser_raise_on_absent_witness :
    Process.cmdline ⟨1, none, none, none, none, none, none, none, none, none⟩ =
      Except.error (PyErr.typeError "can only join an iterable") ∧
    Process.loginuser (fun _ => some "root")
        ⟨1, none, none, none, none, none, none, none, none, none⟩ =
      Except.error (PyErr.typeError "an integer is required") :=
  ⟨(cmdline_loginuser_raise_on_absent _ (fun _ => some "root") rfl rfl).1,
   (cmdline_loginuser_raise_on_absent _ (fun _ => some "root") rfl rfl).2.1⟩

/- ==================== C10 ==================== -/

lemma dictGet?_append_new {K V : Type} [DecidableEq K] (l : List (K × V))
    (k : K) (v : V) (h : dictGet? l k = none) :
    dictGet? (l ++ [(k, v)]) k = some v := by
  unfold dictGet? at h ⊢
  rw [List.filter_append]
  cases hf : l.filter (fun p => decide (p.1 = k)) with
  | cons p ps => rw [hf] at h; cases h
  | nil => simp

/-- C10: `setdefault` is not overridden by the read-only dictionary, so
for a key not already present it raises nothing, appends the entry, and
a subsequent lookup of the key returns the supplied value. -/
theorem rodict_setdefault_inserts {K V : Type} [DecidableEq K] (d : RODict K V)
    (k : K) (v : V) (h : dictGet? d.entries k = none) :
    d.setdefault k v = (none, ⟨d.entries ++ [(k, v)]⟩, v) ∧
    dictGet? (d.setdefault k v).2.1.entries k = some v := by
  have hs : d.setdefault k v = (none, ⟨d.entries ++ [(k, v)]⟩, v) := by
    rw [RODict.setdefault, h]
  exact ⟨hs, by rw [hs]; exact dictGet?_append_new d.entries k v h⟩

/-- Witness for C10 at a concrete table and fresh key. -/
theorem rodict_setdefault_inserts_witness :
    dictGet? ([("a", "1")] : List (String × String)) "b" = none ∧
    dictGet? ((RODict.setdefault ⟨[("a", "1")]⟩ "b" "2").2.1.entries) "b" = some "2" :=
  ⟨by decide, (rodict_setdefault_inserts ⟨[("a", "1")]⟩ "b" "2" (by decide)).2⟩

/- ==================== stat lemmas, C3, C4 ==================== -/

/-- Token `i` (0-indexed) of a whitespace-split stat line. -/
def tok (raw : String) (i : Nat) : String := (pySplitWS raw).getD i ""

/-- The list a successful `statDataE` run produces: all tokens through
`convert`, with positions 23, 35, 36 multiplied by the page size. -/
def statSets (ps : Nat) (raw : String) : List PyVal :=
  ((((pySplitWS raw).map convert).set 23 (pyMul (convert (tok raw 23)) ps)).set 35
      (pyMul (convert (tok raw 35)) ps)).set 36
      (pyMul (convert (tok raw 36)) ps)

lemma getElem?_eq_getD {α : Type} (l : List α) (i : Nat) (d : α) (h : i < l.length) :
    l[i]? = some (l.getD i d) := by
  cases hq : l[i]? with
  | none => rw [List.getElem?_eq_none_iff] at hq; omega
  | some x =>
    rw [show l.getD i d = l[i]?.getD d from by rw [List.getD_eq_getElem?_getD], hq]
    rfl

lemma tok_getElem? (raw : String) (i : Nat) (h : i < (pySplitWS raw).length) :
    (pySplitWS raw)[i]? = some (tok raw i) :=
  getElem?_eq_getD (pySplitWS raw) i "" h

lemma statDataE_eq (ps : Nat) (raw : String)
    (h44 : (pySplitWS raw).length = 44) :
    statDataE ps raw = Except.ok (statSets ps raw) := by
  have hm : ∀ i, i < 44 → ((pySplitWS raw).map convert)[i]?
      = some (convert (tok raw i)) := by
    intro i hi
    rw [List.getElem?_map, tok_getElem? raw i (by omega)]
    rfl
  have hl1 : (((pySplitWS raw).map convert).set 23 (pyMul (convert (tok raw 23)) ps))[35]?
      = some (convert (tok raw 35)) := by
    rw [List.getElem?_set_ne (by decide : (23 : Nat) ≠ 35)]
    exact hm 35 (by omega)
  have hl2 : ((((pySplitWS raw).map convert).set 23
        (pyMul (convert (tok raw 23)) ps)).set 35 (pyMul (convert (tok raw 35)) ps))[36]?
      = some (convert (tok raw 36)) := by
    rw [List.getElem?_set_ne (by decide : (35 : Nat) ≠ 36),
        List.getElem?_set_ne (by decide : (23 : Nat) ≠ 36)]
    exact hm 36 (by omega)
  have s1 : scaleAt ps ((pySplitWS raw).map convert) 23
      = Except.ok (((pySplitWS raw).map convert).set 23
          (pyMul (convert (tok raw 23)) ps)) := by
    unfold scaleAt
    rw [show ((pySplitWS raw).map convert).get? 23
          = ((pySplitWS raw).map convert)[23]? from List.get?_eq_getElem? _ _,
        hm 23 (by omega)]
  have s2 : scaleAt ps (((pySplitWS raw).map convert).set 23
        (pyMul (convert (tok raw 23)) ps)) 35
      = Except.ok ((((pySplitWS raw).map convert).set 23
          (pyMul (convert (tok raw 23)) ps)).set 35
          (pyMul (convert (tok raw 35)) ps)) := by
    unfold scaleAt
    rw [List.get?_eq_getElem?, hl1]
  have s3 : scaleAt ps ((((pySplitWS raw).map convert).set 23
        (pyMul (convert (tok raw 23)) ps)).set 35
        (pyMul (convert (tok raw 35)) ps)) 36
      = Except.ok (statSets ps raw) := by
    unfold scaleAt
    rw [List.get?_eq_getElem?, hl2]
    rfl
  simp only [statDataE, s1, s2, s3]

lemma statSets_length (ps : Nat) (raw : String) :
    (statSets ps raw).length = (pySplitWS raw).length := by
  simp [statSets]

lemma statSets_get_scaled (ps : Nat) (raw : String)
    (h44 : (pySplitWS raw).length = 44) (i : Nat)
    (hi : i = 23 ∨ i = 35 ∨ i = 36) :
    (statSets ps raw)[i]? = some (pyMul (convert (tok raw i)) ps) := by
  have hlen : ((pySplitWS raw).map convert).length = 44 := by simp [h44]
  rcases hi with rfl | rfl | rfl
  · rw [statSets, List.getElem?_set_ne (by decide : (36 : Nat) ≠ 23),
        List.getElem?_set_ne (by decide : (35 : Nat) ≠ 23)]
    exact List.getElem?_set_eq (by omega)
  · rw [statSets, List.getElem?_set_ne (by decide : (36 : Nat) ≠ 35)]
    exact List.getElem?_set_eq (by simp [hlen])
  · exact List.getElem?_set_eq (by simp [hlen])

lemma statSets_get_other (ps : Nat) (raw : String)
    (h44 : (pySplitWS raw).length = 44) (i : Nat)
    (hi : i < 44) (h23 : i ≠ 23) (h35 : i ≠ 35) (h36 : i ≠ 36) :
    (statSets ps raw)[i]? = some (convert (tok raw i)) := by
  rw [statSets, List.getElem?_set_ne (fun he => h36 he.symm),
      List.getElem?_set_ne (fun he => h35 he.symm),
      List.getElem?_set_ne (fun he => h23 he.symm),
      List.getElem?_map, tok_getElem? raw i (by omega)]
  rfl

lemma _stat_ok (ps : Nat) (raw : String)
    (h44 : (pySplitWS raw).length = 44) :
    Process._stat ps (some raw) = Except.ok (some (PStat.ofList (statSets ps raw))) := by
  simp [Process._stat, statDataE_eq ps raw h44, statSets_length, h44]

lemma getD_of_getElem? {α : Type} {l : List α} {i : Nat} {v d : α}
    (h : l[i]? = some v) : l.getD i d = v := by
  rw [List.getD_eq_getElem?_getD, h]
  rfl

lemma convert_int_of_isSome {s : String} (h : (decInt? (pyTrim s)).isSome = true) :
    convert s = PyVal.int ((decInt? (pyTrim s)).getD 0) := by
  cases hq : decInt? (pyTrim s) with
  | none => rw [hq] at h; cases h
  | some n => unfold convert; rw [hq]; rfl

/-- C3: on a well-formed stat line of the full 44-token arity whose
tokens at 0-indexed positions 23, 35, 36 (1-indexed 24, 36, 37) are
numeric, the parser succeeds and the produced data has exactly those
three positions multiplied by the page size, every other position
being the bare converted token — in particular every other numeric
token keeps its integer value unscaled. -/
theorem stat_scales_positions_24_36_37 (ps : Nat) (raw : String)
    (h44 : (pySplitWS raw).length = 44)
    (hnum : ∀ i ∈ ([23, 35, 36] : List Nat),
      (decInt? (pyTrim (tok raw i))).isSome = true) :
    statDataE ps raw = Except.ok (statSets ps raw) ∧
    Process._stat ps (some raw) = Except.ok (some (PStat.ofList (statSets ps raw))) ∧
    (statSets ps raw).length = 44 ∧
    (∀ i, (i = 23 ∨ i = 35 ∨ i = 36) →
      (statSets ps raw)[i]? =
        some (PyVal.int (((decInt? (pyTrim (tok raw i))).getD 0) * ps))) ∧
    (∀ i, i < 44 → i ≠ 23 → i ≠ 35 → i ≠ 36 →
      (statSets ps raw)[i]? = some (convert (tok raw i))) ∧
    (∀ i n, i < 44 → i ≠ 23 → i ≠ 35 → i ≠ 36 →
      decInt? (pyTrim (tok raw i)) = some n →
      (statSets ps raw)[i]? = some (PyVal.int n)) := by
  refine ⟨statDataE_eq ps raw h44, _stat_ok ps raw h44,
    by rw [statSets_length, h44], ?_, ?_, ?_⟩
  · intro i hi
    rw [statSets_get_scaled ps raw h44 i hi,
        convert_int_of_isSome (hnum i (by rcases hi with rfl | rfl | rfl <;> simp))]
    rfl
  · intro i hi h23 h35 h36
    exact statSets_get_other ps raw h44 i hi h23 h35 h36
  · intro i n hi h23 h35 h36 hq
    rw [statSets_get_other ps raw h44 i hi h23 h35 h36]
    unfold convert
    rw [hq]

/-- Concrete 44-token stat line used as witness and counterexample
input: token 23 (rss) is 7, tokens 24, 25, 26 (rsslim, startcode,
endcode) are 5, tokens 35, 36 (nswap, cnswap) are 7. -/
def cStat : String :=
  "1 (init) S 0 0 0 0 0 0 0 0 0 0 0 0 0 0 0 0 1 0 0 0 7 5 5 5 0 0 0 0 0 0 0 0 7 7 0 0 0 0 0 0 0"

/-- Witness for C3 at the concrete stat line with page size 4096. -/
theorem stat_scales_positions_witness :
    Process._stat 4096 (some cStat) =
      Except.ok (some (PStat.ofList (statSets 4096 cStat))) ∧
    (statSets 4096 cStat)[23]? = some (PyVal.int 28672) ∧
    (statSets 4096 cStat)[24]? = some (PyVal.int 5) := by
  have h := stat_scales_positions_24_36_37 4096 cStat (by decide) (by decide)
  refine ⟨h.2.1, ?_, ?_⟩
  · rw [h.2.2.2.1 23 (Or.inl rfl)]
    decide
  · rw [h.2.2.2.2.1 24 (by omega) (by omega) (by omega) (by omega)]
    decide

/-- Projection of a parse result onto one stat field. -/
def statField (f : PStat → PyVal) : Except PyErr (Option PStat) → Option PyVal
  | Except.ok (some st) => some (f st)
  | _ => none

/-- C4 counterexample: on the concrete line, the rsslim, startcode and
endcode fields are NOT converted (token 5 stays 5, not 5 * 4096), while
the rss, nswap and cnswap fields ARE multiplied by the page size. -/
theorem stat_conversion_counterexample :
    statField PStat.rsslim (Process._stat 4096 (some cStat)) = some (PyVal.int 5) ∧
    statField PStat.startcode (Process._stat 4096 (some cStat)) = some (PyVal.int 5) ∧
    statField PStat.endcode (Process._stat 4096 (some cStat)) = some (PyVal.int 5) ∧
    PyVal.int 5 ≠ PyVal.int (5 * 4096) ∧
    statField PStat.rss (Process._stat 4096 (some cStat)) = some (PyVal.int (7 * 4096)) ∧
    statField PStat.nswap (Process._stat 4096 (some cStat)) = some (PyVal.int (7 * 4096)) ∧
    statField PStat.cnswap (Process._stat 4096 (some cStat)) = some (PyVal.int (7 * 4096)) :=
  ⟨rfl, rfl, rfl, by decide, rfl, rfl, rfl⟩

/-- C4 amended: the three fields converted from pages to bytes at
parse time are rss, nswap and cnswap (0-indexed token positions 23, 35,
36); rsslim, startcode and endcode — and every other field — pass
through as the bare converted token. -/
theorem stat_scaled_fields_are_rss_nswap_cnswap (ps : Nat) (raw : String)
    (h44 : (pySplitWS raw).length = 44)
    (hnum : ∀ i ∈ ([23, 35, 36] : List Nat),
      (decInt? (pyTrim (tok raw i))).isSome = true) :
    Process._stat ps (some raw) = Except.ok (some (PStat.ofList (statSets ps raw))) ∧
    (PStat.ofList (statSets ps raw)).rss =
      PyVal.int (((decInt? (pyTrim (tok raw 23))).getD 0) * ps) ∧
    (PStat.ofList (statSets ps raw)).nswap =
      PyVal.int (((decInt? (pyTrim (tok raw 35))).getD 0) * ps) ∧
    (PStat.ofList (statSets ps raw)).cnswap =
      PyVal.int (((decInt? (pyTrim (tok raw 36))).getD 0) * ps) ∧
    (PStat.ofList (statSets ps raw)).rsslim = convert (tok raw 24) ∧
    (PStat.ofList (statSets ps raw)).startcode = convert (tok raw 25) ∧
    (PStat.ofList (statSets ps raw)).endcode = convert (tok raw 26) ∧
    (∀ i, i < 44 → i ≠ 23 → i ≠ 35 → i ≠ 36 →
      (statSets ps raw)[i]? = some (convert (tok raw i))) := by
  have hsc : ∀ i, (i = 23 ∨ i = 35 ∨ i = 36) →
      (statSets ps raw).getD i (PyVal.int 0) =
        PyVal.int (((decInt? (pyTrim (tok raw i))).getD 0) * ps) := by
    intro i hi
    rw [getD_of_getElem? (statSets_get_scaled ps raw h44 i hi),
        convert_int_of_isSome (hnum i (by rcases hi with rfl | rfl | rfl <;> simp))]
    rfl
  have hot : ∀ i, i < 44 → i ≠ 23 → i ≠ 35 → i ≠ 36 →
      (statSets ps raw).getD i (PyVal.int 0) = convert (tok raw i) := by
    intro i hi h23 h35 h36
    exact getD_of_getElem? (statSets_get_other ps raw h44 i hi h23 h35 h36)
  exact ⟨_stat_ok ps raw h44,
    hsc 23 (Or.inl rfl), hsc 35 (Or.inr (Or.inl rfl)), hsc 36 (Or.inr (Or.inr rfl)),
    hot 24 (by omega) (by omega) (by omega) (by omega),
    hot 25 (by omega) (by omega) (by omega) (by omega),
    hot 26 (by omega) (by omega) (by omega) (by omega),
    fun i hi h23 h35 h36 => statSets_get_other ps raw h44 i hi h23 h35 h36⟩

/-- Witness for the amended C4 at the concrete stat line. -/
theorem stat_scaled_fields_witness :
    (PStat.ofList (statSets 4096 cStat)).rss = PyVal.int 28672 ∧
    (PStat.ofList (statSets 4096 cStat)).rsslim = PyVal.int 5 := by
  have h := stat_scaled_fields_are_rss_nswap_cnswap 4096 cStat (by decide) (by decide)
  refine ⟨?_, ?_⟩
  · rw [h.2.1]; decide
  · rw [h.2.2.2.2.1]; decide

/- ==================== C8 ==================== -/

lemma mapIntScaled_eq (ps : Nat) (ts : List String)
    (h : ∀ t ∈ ts, (decInt? t).isSome = true) :
    mapIntScaled ps ts =
      Except.ok (ts.map (fun t => ((decInt? t).getD 0) * (ps : Int))) := by
  induction ts with
  | nil => rfl
  | cons t ts ih =>
    have ht := h t (List.mem_cons_self t ts)
    cases hq : decInt? t with
    | none => rw [hq] at ht; cases ht
    | some n =>
      rw [mapIntScaled, hq, ih (fun x hx => h x (List.mem_cons_of_mem t hx))]
      simp [hq, Except.map]

lemma list_len7 {α : Type} (l : List α) (h : l.length = 7) :
    ∃ a b c d e f g, l = [a, b, c, d, e, f, g] := by
  match l, h with
  | [a, b, c, d, e, f, g], _ => exact ⟨a, b, c, d, e, f, g, rfl⟩

/-- C8: on a statm content of 7 whitespace-separated integer tokens,
every token is multiplied by the page size, the i-th scaled token
landing in the i-th field of the record. -/
theorem statm_scales_every_token (ps : Nat) (raw : String)
    (h7 : (pySplitWS raw).length = 7)
    (hnum : ∀ t ∈ pySplitWS raw, (decInt? t).isSome = true) :
    Process._statm ps (some raw) = Except.ok (some
      ⟨((decInt? (tok raw 0)).getD 0) * (ps : Int),
       ((decInt? (tok raw 1)).getD 0) * (ps : Int),
       ((decInt? (tok raw 2)).getD 0) * (ps : Int),
       ((decInt? (tok raw 3)).getD 0) * (ps : Int),
       ((decInt? (tok raw 4)).getD 0) * (ps : Int),
       ((decInt? (tok raw 5)).getD 0) * (ps : Int),
       ((decInt? (tok raw 6)).getD 0) * (ps : Int)⟩) := by
  obtain ⟨a, b, c, d, e, f, g, hl⟩ := list_len7 (pySplitWS raw) h7
  rw [Process._statm, mapIntScaled_eq ps (pySplitWS raw) hnum, hl]
  simp only [List.map]
  unfold tok
  rw [hl]
  rfl

/-- Witness for C8: the spec example line with page size 4096. -/
theorem statm_scales_every_token_witness :
    Process._statm 4096 (some "10 5 2 1 0 4 0") = Except.ok (some
      ⟨40960, 20480, 8192, 4096, 0, 16384, 0⟩) := by
  have h := statm_scales_every_token 4096 "10 5 2 1 0 4 0" (by decide) (by decide)
  rw [h]
  rfl

/- ==================== C6 ==================== -/

/-- C6: a non-header, non-empty, newline-free limits line of the
ragged 68-column width (26-column name plus two 21-column value
fields, no trailing units field) does not raise: it produces exactly
one entry whose soft and hard limits both carry the `N/A` units
sentinel. -/
theorem limits_ragged_units_na (line : String)
    (hnl : '\n' ∉ line.data)
    (hh : pyStartsWith line "Limit" = false)
    (hne : line ≠ "")
    (h68 : pyLen line = 68) :
    Process._limits (some line) = Except.ok (some ⟨[(convert (pyTake line 26),
      ⟨⟨convert (pyTake (pyDrop line 26) 21), PyVal.str "N/A"⟩,
       ⟨convert (pyDrop line 47), PyVal.str "N/A"⟩⟩)]⟩) := by
  have hp : parseLimitsLine line = Except.ok (convert (pyTake line 26),
      ⟨⟨convert (pyTake (pyDrop line 26) 21), PyVal.str "N/A"⟩,
       ⟨convert (pyDrop line 47), PyVal.str "N/A"⟩⟩) := by
    rw [parseLimitsLine, if_neg (by rw [h68]; decide), if_pos h68]
  rw [Process._limits, pySplitOnC_no_sep line '\n' hnl]
  simp [limitsFold, hh, hne, hp, dictInsert, Except.map]

/-- Concrete ragged limits line: 26 + 21 + 21 = 68 columns. -/
def cLim68 : String :=
  "Max cpu time              unlimited            unlimited            "

/-- Witness for C6 at the concrete ragged line. -/
theorem limits_ragged_units_na_witness :
    Process._limits (some cLim68) = Except.ok (some ⟨[(PyVal.str "Max cpu time",
      ⟨⟨PyVal.str "unlimited", PyVal.str "N/A"⟩,
       ⟨PyVal.str "unlimited", PyVal.str "N/A"⟩⟩)]⟩) := by
  rw [limits_ragged_units_na cLim68 (by decide) (by decide) (by decide) (by decide)]
  rfl

/- ==================== C5 ==================== -/

lemma pyTake_all (line : String) (h : ¬ 73 < pyLen line) : pyTake line 73 = line := by
  rw [pyTake, List.take_all_of_le (by rw [pyLen] at h; omega)]

lemma getD_of_get? {α : Type} {l : List α} {i : Nat} {v d : α}
    (h : l.get? i = some v) : l.getD i d = v := by
  rw [List.get?_eq_getElem?] at h
  exact getD_of_getElem? h

lemma parseMapsFields_inv (fields : List String)
    (f : AddressRange × Perms × Nat × Device × Int)
    (h : parseMapsFields fields = Except.ok f) :
    mapHexList (pySplitOnC (fields.getD 0 "") '-') = some [f.1.start, f.1.«end»] ∧
    f.2.1 = Perms.ofRaw (fields.getD 1 "") ∧
    hexInt? (fields.getD 2 "") = some f.2.2.1 ∧
    mapHexList (pySplitOnC (fields.getD 3 "") ':')
      = some [f.2.2.2.1.major, f.2.2.2.1.minor] ∧
    decInt? (fields.getD 4 "") = some f.2.2.2.2 := by
  rw [parseMapsFields] at h
  rw [except_bind_ok] at h
  obtain ⟨f0, hf0, h⟩ := h
  rw [except_bind_ok] at h
  obtain ⟨addrs, haddrs, h⟩ := h
  rw [except_bind_ok] at h
  obtain ⟨ab, hab, h⟩ := h
  rw [except_bind_ok] at h
  obtain ⟨f1, hf1, h⟩ := h
  rw [except_bind_ok] at h
  obtain ⟨f2, hf2, h⟩ := h
  rw [except_bind_ok] at h
  obtain ⟨off, hoff, h⟩ := h
  rw [except_bind_ok] at h
  obtain ⟨f3, hf3, h⟩ := h
  rw [except_bind_ok] at h
  obtain ⟨devs, hdevs, h⟩ := h
  rw [except_bind_ok] at h
  obtain ⟨mm, hmm, h⟩ := h
  rw [except_bind_ok] at h
  obtain ⟨f4, hf4, h⟩ := h
  rw [except_bind_ok] at h
  obtain ⟨inode, hinode, h⟩ := h
  cases h
  rw [getD_of_get? (getField_ok hf0), getD_of_get? (getField_ok hf1),
      getD_of_get? (getField_ok hf2), getD_of_get? (getField_ok hf3),
      getD_of_get? (getField_ok hf4)]
  refine ⟨?_, rfl, ?_, ?_, ?_⟩
  · rw [mapHexE_ok haddrs, pair2_ok hab]
  · exact hexE_ok hoff
  · rw [mapHexE_ok hdevs, pair2_ok hmm]
  · exact decE_ok hinode

/-- C5: every maps line is decoded from exactly its first 73 columns
(the whole line when shorter), the optional pathname being the bytes
beyond column 73 stripped of surrounding whitespace — absent exactly
when nothing follows column 73; on success the record carries the
hyphen-separated hex address range, the permission flags, the hex
offset, the colon-separated hex major:minor device and the decimal
inode decoded from that fixed-width region. -/
theorem maps_fixed_width_pathname (line : String) :
    parseMapsLine line =
      (parseMapsFields (pySplitWS (pyTake line 73))).map
        (fun f => ⟨f.1, f.2.1, f.2.2.1, f.2.2.2.1, f.2.2.2.2,
          if 73 < pyLen line then some (pyTrim (pyDrop line 73)) else none⟩) ∧
    (∀ pm, parseMapsLine line = Except.ok pm →
      pm.pathname =
        (if 73 < pyLen line then some (pyTrim (pyDrop line 73)) else none) ∧
      mapHexList (pySplitOnC ((pySplitWS (pyTake line 73)).getD 0 "") '-')
        = some [pm.addresses.start, pm.addresses.«end»] ∧
      pm.perms = Perms.ofRaw ((pySplitWS (pyTake line 73)).getD 1 "") ∧
      hexInt? ((pySplitWS (pyTake line 73)).getD 2 "") = some pm.offset ∧
      mapHexList (pySplitOnC ((pySplitWS (pyTake line 73)).getD 3 "") ':')
        = some [pm.dev.major, pm.dev.minor] ∧
      decInt? ((pySplitWS (pyTake line 73)).getD 4 "") = some pm.inode) := by
  have hmain : parseMapsLine line =
      (parseMapsFields (pySplitWS (pyTake line 73))).map
        (fun f => ⟨f.1, f.2.1, f.2.2.1, f.2.2.2.1, f.2.2.2.2,
          if 73 < pyLen line then some (pyTrim (pyDrop line 73)) else none⟩) := by
    by_cases h73 : 73 < pyLen line
    · simp [parseMapsLine, h73]
    · simp [parseMapsLine, h73, pyTake_all line h73]
  refine ⟨hmain, ?_⟩
  intro pm hpm
  rw [hmain] at hpm
  cases hf : parseMapsFields (pySplitWS (pyTake line 73)) with
  | error e => rw [hf] at hpm; cases hpm
  | ok f =>
    rw [hf] at hpm
    cases hpm
    obtain ⟨ha, hp, ho, hd, hi⟩ := parseMapsFields_inv _ f hf
    exact ⟨rfl, ha, hp.symm ▸ rfl, ho, hd, hi⟩

/-- Concrete maps line with a pathname beyond column 73. -/
def cMapPath : String :=
  "00400000-0041f000 r-xp 00000000 fd:00 2228226                            /bin/cat"

/-- The record the concrete maps line decodes to. -/
def cMapRecord : PMap :=
  ⟨⟨4194304, 4321280⟩, Perms.ofRaw "r-xp", 0, ⟨253, 0⟩, 2228226, some "/bin/cat"⟩

/-- Witness for C5 at the concrete maps line. -/
theorem maps_fixed_width_pathname_witness :
    parseMapsLine cMapPath = Except.ok cMapRecord ∧
    cMapRecord.pathname = some (pyTrim (pyDrop cMapPath 73)) ∧
    mapHexList (pySplitOnC ((pySplitWS (pyTake cMapPath 73)).getD 0 "") '-')
      = some [cMapRecord.addresses.start, cMapRecord.addresses.«end»] := by
  have hok : parseMapsLine cMapPath = Except.ok cMapRecord := by rfl
  have h := (maps_fixed_width_pathname cMapPath).2 cMapRecord hok
  refine ⟨hok, ?_, h.2.1⟩
  rw [h.1]
  decide

/- ==================== C2 ==================== -/

/-- Value of a non-raising computation (used to name the fields of a
successfully built snapshot). -/
def exceptD {ε α : Type} (x : Except ε α) (d : α) : α :=
  match x with
  | Except.ok a => a
  | Except.error _ => d

lemma mapsFold_ok : ∀ ls : List String,
    (∀ l ∈ ls, pyLen l = 0 ∨ exceptOk (parseMapsLine l) = true) →
    ∃ r, mapsFold ls = Except.ok r := by
  intro ls
  induction ls with
  | nil => exact fun _ => ⟨[], rfl⟩
  | cons l ls ih =>
    intro h
    obtain ⟨r, hr⟩ := ih (fun x hx => h x (List.mem_cons_of_mem l hx))
    by_cases hl : pyLen l = 0
    · exact ⟨r, by rw [mapsFold, if_pos hl, hr]⟩
    · rcases h l (List.mem_cons_self l ls) with h0 | hok
      · exact absurd h0 hl
      · cases hp : parseMapsLine l with
        | error e => rw [hp] at hok; simp [exceptOk] at hok
        | ok m => exact ⟨m :: r, by rw [mapsFold, if_neg hl, hp, hr]; rfl⟩

lemma limitsFold_ok : ∀ ls : List String,
    (∀ l ∈ ls, pyStartsWith l "Limit" = true ∨ l = "" ∨
      exceptOk (parseLimitsLine l) = true) →
    ∀ acc, ∃ r, limitsFold ls acc = Except.ok r := by
  intro ls
  induction ls with
  | nil => exact fun _ acc => ⟨acc, rfl⟩
  | cons l ls ih =>
    intro h acc
    have htail := fun x hx => h x (List.mem_cons_of_mem l hx)
    by_cases h1 : pyStartsWith l "Limit" = true
    · rw [limitsFold, if_pos h1]
      exact ih htail acc
    · by_cases h2 : l = ""
      · rw [limitsFold, if_neg h1, if_pos h2]
        exact ih htail acc
      · rcases h l (List.mem_cons_self l ls) with hh | he | hok
        · exact absurd hh h1
        · exact absurd he h2
        · cases hp : parseLimitsLine l with
          | error e => rw [hp] at hok; simp [exceptOk] at hok
          | ok kv =>
            obtain ⟨k, v⟩ := kv
            rw [limitsFold, if_neg h1, if_neg h2, hp]
            exact ih htail (dictInsert acc k v)

lemma _limits_spec (o : Option String) (h : wfLimits o = true) :
    ∃ v, Process._limits o = Except.ok v ∧ (v.isNone ↔ o.isNone) := by
  cases o with
  | none => exact ⟨none, rfl, by simp⟩
  | some raw =>
    rw [wfLimits, List.all_eq_true] at h
    obtain ⟨r, hr⟩ := limitsFold_ok (pySplitOnC raw '\n')
      (fun l hl => by
        have h2 := h l hl
        simp only [Bool.or_eq_true, decide_eq_true_eq] at h2
        tauto) []
    exact ⟨some ⟨r⟩, by rw [Process._limits, hr]; rfl, by simp⟩

lemma _maps_spec (o : Option String) (h : wfMaps o = true) :
    ∃ v, Process._maps o = Except.ok v ∧ (v.isNone ↔ o.isNone) := by
  cases o with
  | none => exact ⟨none, rfl, by simp⟩
  | some raw =>
    rw [wfMaps, List.all_eq_true] at h
    obtain ⟨r, hr⟩ := mapsFold_ok (pySplitOnC raw '\n')
      (fun l hl => by
        have := h l hl
        simpa [Bool.or_eq_true, decide_eq_true_eq] using this)
    exact ⟨some r, by rw [Process._maps, hr]; rfl, by simp⟩

lemma _loginuid_spec (o : Option String) (h : wfLoginuid o = true) :
    ∃ v, Process._loginuid o = Except.ok v ∧ (v.isNone ↔ o.isNone) := by
  cases o with
  | none => exact ⟨none, rfl, by simp⟩
  | some raw =>
    rw [wfLoginuid] at h
    cases hq : decInt? (pyTrim raw) with
    | none => rw [hq] at h; cases h
    | some n => exact ⟨some n, by rw [Process._loginuid, hq], by simp⟩

lemma _stat_spec (ps : Nat) (o : Option String) (h : wfStat o = true) :
    ∃ v, Process._stat ps o = Except.ok v ∧ (v.isNone ↔ o.isNone) := by
  cases o with
  | none => exact ⟨none, rfl, by simp⟩
  | some raw =>
    rw [wfStat] at h
    exact ⟨some (PStat.ofList (statSets ps raw)),
      _stat_ok ps raw (of_decide_eq_true h), by simp⟩

lemma _statm_spec (ps : Nat) (o : Option String) (h : wfStatM o = true) :
    ∃ v, Process._statm ps o = Except.ok v ∧ (v.isNone ↔ o.isNone) := by
  cases o with
  | none => exact ⟨none, rfl, by simp⟩
  | some raw =>
    rw [wfStatM, Bool.and_eq_true] at h
    obtain ⟨h7, hall⟩ := h
    have h7' : (pySplitWS raw).length = 7 := of_decide_eq_true h7
    have hall' : ∀ t ∈ pySplitWS raw, (decInt? t).isSome = true := by
      rw [List.all_eq_true] at hall
      exact hall
    obtain ⟨a, b, c, d, e, f, g, hl⟩ := list_len7 (pySplitWS raw) h7'
    refine ⟨some ⟨((decInt? a).getD 0) * (ps : Int), ((decInt? b).getD 0) * (ps : Int),
      ((decInt? c).getD 0) * (ps : Int), ((decInt? d).getD 0) * (ps : Int),
      ((decInt? e).getD 0) * (ps : Int), ((decInt? f).getD 0) * (ps : Int),
      ((decInt? g).getD 0) * (ps : Int)⟩, ?_, by simp⟩
    rw [Process._statm, mapIntScaled_eq ps _ hall', hl]
    rfl

/-- C2: under wellformed readable inputs, snapshot construction
succeeds with no exception, and each of the nine snapshot fields is
absent exactly when its source read was absent — never a default
record. -/
theorem snapshot_absence_propagation (ps : Nat) (pid : Int) (inp : ProcInputs)
    (hlu : wfLoginuid inp.loginuid = true)
    (hst : wfStat inp.stat = true)
    (hsm : wfStatM inp.statm = true)
    (hmp : wfMaps inp.maps = true)
    (hlm : wfLimits inp.limits = true) :
    Process.build ps pid inp = Except.ok
      ⟨pid, Process._args inp.cmdline, Process._environ inp.environ,
       Process._fds inp.fds, exceptD (Process._limits inp.limits) none,
       exceptD (Process._loginuid inp.loginuid) none,
       exceptD (Process._maps inp.maps) none, Process._root inp.root,
       exceptD (Process._stat ps inp.stat) none,
       exceptD (Process._statm ps inp.statm) none⟩ ∧
    ((Process._args inp.cmdline).isNone ↔ inp.cmdline.isNone) ∧
    ((Process._environ inp.environ).isNone ↔ inp.environ.isNone) ∧
    ((Process._fds inp.fds).isNone ↔ inp.fds.isNone) ∧
    ((exceptD (Process._limits inp.limits) none).isNone ↔ inp.limits.isNone) ∧
    ((exceptD (Process._loginuid inp.loginuid) none).isNone ↔ inp.loginuid.isNone) ∧
    ((exceptD (Process._maps inp.maps) none).isNone ↔ inp.maps.isNone) ∧
    ((Process._root inp.root).isNone ↔ inp.root.isNone) ∧
    ((exceptD (Process._stat ps inp.stat) none).isNone ↔ inp.stat.isNone) ∧
    ((exceptD (Process._statm ps inp.statm) none).isNone ↔ inp.statm.isNone) := by
  obtain ⟨vlm, hvlm, ilm⟩ := _limits_spec inp.limits hlm
  obtain ⟨vlu, hvlu, ilu⟩ := _loginuid_spec inp.loginuid hlu
  obtain ⟨vmp, hvmp, imp⟩ := _maps_spec inp.maps hmp
  obtain ⟨vst, hvst, ist⟩ := _stat_spec ps inp.stat hst
  obtain ⟨vsm, hvsm, ism⟩ := _statm_spec ps inp.statm hsm
  refine ⟨?_, ?_, ?_, ?_, ?_, ?_, ?_, ?_, ?_, ?_⟩
  · simp only [Process.build, hvlm, hvlu, hvmp, hvst, hvsm, exceptD]
  · cases inp.cmdline <;> simp [Process._args]
  · cases inp.environ <;> simp [Process._environ]
  · cases inp.fds <;> simp [Process._fds]
  · rw [hvlm]; exact ilm
  · rw [hvlu]; exact ilu
  · rw [hvmp]; exact imp
  · cases inp.root <;> simp [Process._root]
  · rw [hvst]; exact ist
  · rw [hvsm]; exact ism

/-- Concrete wellformed inputs for the C2 witness: every file
readable. -/
def cInputs : ProcInputs :=
  ⟨some "/sbin/init\x00-v\x00", some "FOO=bar\x00BAZ\x00", some [("0", "/dev/null")],
   some cLim68, some "1000", some cMapPath, some "/", some cStat,
   some "10 5 2 1 0 4 0"⟩

/-- Witness for C2 at concrete inputs. -/
theorem snapshot_absence_propagation_witness :
    Process.build 4096 1 cInputs = Except.ok
      ⟨1, Process._args cInputs.cmdline, Process._environ cInputs.environ,
       Process._fds cInputs.fds, exceptD (Process._limits cInputs.limits) none,
       exceptD (Process._loginuid cInputs.loginuid) none,
       exceptD (Process._maps cInputs.maps) none, Process._root cInputs.root,
       exceptD (Process._stat 4096 cInputs.stat) none,
       exceptD (Process._statm 4096 cInputs.statm) none⟩ ∧
    ((Process._args cInputs.cmdline).isNone ↔ cInputs.cmdline.isNone) ∧
    ((exceptD (Process._stat 4096 cInputs.stat) none).isNone ↔ cInputs.stat.isNone) :=
  ⟨(snapshot_absence_propagation 4096 1 cInputs (by decide) (by decide) (by decide)
      (by decide) (by decide)).1,
   (snapshot_absence_propagation 4096 1 cInputs (by decide) (by decide) (by decide)
      (by decide) (by decide)).2.1,
   (snapshot_absence_propagation 4096 1 cInputs (by decide) (by decide) (by decide)
      (by decide) (by decide)).2.2.2.2.2.2.2.2.1⟩
